import Mathlib

/-!
Verification development for the generic tool-execution and pagination engine
of the gong-mcp server (source file: the generated MCP server, function
executeApiTool and its helpers).  The JavaScript/TypeScript code is embedded
shallowly: JS runtime values become the inductive type JSValue, the axios
response stream becomes an explicit list of responses, and the engine loop
becomes a structurally recursive function over that list.
-/

namespace GongMcp

/-- A JavaScript runtime value as manipulated by the engine.  Machine floats
do not occur in the engine logic, so numbers are modelled as integers.
The constructor undef models the JS value undefined, which the engine
produces when probing absent object properties. -/
inductive JSValue where
  | undef : JSValue
  | null : JSValue
  | bool (b : Bool) : JSValue
  | num (n : Int) : JSValue
  | str (s : String) : JSValue
  | arr (elems : List JSValue) : JSValue
  | obj (fields : List (String × JSValue)) : JSValue

/-- JS truthiness: undefined, null, false, 0 and the empty string are falsy;
every object and array is truthy. -/
def truthy : JSValue → Bool
  | .undef => false
  | .null => false
  | .bool b => b
  | .num n => n != 0
  | .str s => s != ""
  | .arr _ => true
  | .obj _ => true

/-- Array.isArray. -/
def isArray : JSValue → Bool
  | .arr _ => true
  | _ => false

/-- The JS test v !== undefined, as a boolean on the model. -/
def isUndef : JSValue → Bool
  | .undef => true
  | _ => false

/-- Whether a value is a JS object or array, i.e. a value onto which a
property can be created by assignment in strict mode. -/
def isObjOrArr : JSValue → Bool
  | .obj _ => true
  | .arr _ => true
  | _ => false

/-- Field lookup in a JS object field list (first matching key; JS objects
have unique keys).  Absent keys give undefined. -/
def lookupJS : List (String × JSValue) → String → JSValue
  | [], _ => .undef
  | kv :: rest, k => if kv.1 == k then kv.2 else lookupJS rest k

/-- Optional-chaining property access, v?.f, and also plain access on values
that are known not to be null or undefined: on a non-object it yields
undefined (primitive wrappers have none of the properties the engine probes),
on null or undefined it yields undefined. -/
def optGet (v : JSValue) (f : String) : JSValue :=
  match v with
  | .obj fields => lookupJS fields f
  | _ => (.undef : JSValue)

/-- Plain property access v.f: throws a TypeError when v is null or
undefined, otherwise behaves like optGet. -/
def getFE (v : JSValue) (f : String) : Except String JSValue :=
  match v with
  | .undef => .error ("TypeError: Cannot read properties of undefined (reading " ++ f ++ ")")
  | .null => .error ("TypeError: Cannot read properties of null (reading " ++ f ++ ")")
  | .obj fields => .ok (lookupJS fields f)
  | _ => .ok (.undef : JSValue)

/-- The JS expression a || b. -/
def jsOr (a b : JSValue) : JSValue :=
  if truthy a then a else b

/-- Assignment of key k in a field list: overwrites the existing entry in
place (JS objects keep insertion order on update) or appends a new entry. -/
def setEntry (fields : List (String × JSValue)) (k : String) (v : JSValue) :
    List (String × JSValue) :=
  if fields.any (fun kv => kv.1 == k) then
    fields.map (fun kv => if kv.1 == k then (k, v) else kv)
  else
    fields ++ [(k, v)]

/-- The JS statement delete o.k on an object field list. -/
def removeField (fields : List (String × JSValue)) (k : String) :
    List (String × JSValue) :=
  fields.filter (fun kv => !(kv.1 == k))

/-- Strict-mode property assignment v.f = x.  On an object the field is set;
on an array the property is stored on the array object but is invisible to
JSON.stringify, which only serializes index properties, so the model keeps
the array unchanged; on any other value strict mode throws a TypeError. -/
def setF (v : JSValue) (f : String) (x : JSValue) : Except String JSValue :=
  match v with
  | .obj fields => .ok (.obj (setEntry fields f x))
  | .arr elems => .ok (.arr elems)
  | _ => .error ("TypeError: Cannot create property " ++ f ++ " on a non-object value")

/-- Object spread of a value, as in the copy of the request body: an object
gives its fields, an array gives its index properties, a string gives its
character index properties, and the other primitives contribute nothing. -/
def objSpread (v : JSValue) : List (String × JSValue) :=
  match v with
  | .obj fields => fields
  | .arr elems => (elems.enum.map (fun p => (toString p.1, p.2)))
  | .str s => (s.data.enum.map (fun p => (toString p.1, JSValue.str (String.singleton p.2))))
  | _ => []

/-- Array spread of a value, as in the bracket-spread merge expressions:
arrays give their elements, strings are iterable character by character, and
every other value throws a TypeError. -/
def jsSpreadList : JSValue → Except String (List JSValue)
  | .arr elems => .ok elems
  | .str s => .ok (s.data.map (fun c => JSValue.str (String.singleton c)))
  | _ => .error "TypeError: value is not iterable"

/-- The JS call v.push(x): appends when v is an array, otherwise push is not
a function and a TypeError is thrown. -/
def jsPush : JSValue → JSValue → Except String JSValue
  | .arr elems, x => .ok (.arr (elems ++ [x]))
  | _, _ => .error "TypeError: push is not a function"

mutual

/-- JS string coercion String(v), used when a value is interpolated into a
URL.  Arrays join their elements with commas, where null and undefined
elements join as the empty string. -/
def jsToString : JSValue → String
  | .undef => "undefined"
  | .null => "null"
  | .bool b => cond b "true" "false"
  | .num n => toString n
  | .str s => s
  | .arr elems => String.intercalate "," (jsToStringJoinElems elems)
  | .obj _ => "[object Object]"

def jsToStringJoinElems : List JSValue → List String
  | [] => []
  | .undef :: rest => "" :: jsToStringJoinElems rest
  | .null :: rest => "" :: jsToStringJoinElems rest
  | v :: rest => jsToString v :: jsToStringJoinElems rest

end

/-- Hexadecimal digit characters (uppercase, as produced by JSON \u escapes
and percent encodings). -/
def hexDigitChar (n : Nat) : Char :=
  if n < 10 then Char.ofNat (48 + n) else Char.ofNat (55 + n)

/-- JSON string escaping as performed by JSON.stringify: quote, backslash
and control characters are escaped. -/
def jsonEscapeChar (c : Char) : String :=
  if c = '"' then "\\\""
  else if c = '\\' then "\\\\"
  else if c = '\n' then "\\n"
  else if c = '\r' then "\\r"
  else if c = '\t' then "\\t"
  else if c.toNat < 32 then
    "\\u00" ++ String.singleton (hexDigitChar (c.toNat / 16)) ++
      String.singleton (hexDigitChar (c.toNat % 16))
  else String.singleton c

/-- JSON.stringify of a string value. -/
def jsonEscape (s : String) : String :=
  "\"" ++ String.join (s.data.map jsonEscapeChar) ++ "\""

mutual

/-- JSON.stringify.  In arrays, undefined elements serialize as null; in
objects, entries with undefined values are dropped.  A top-level undefined
yields no string in JS; the engine only stringifies truthy values, so that
case is unreachable and is mapped to the string null here.  The inductive
value model has no cycles, so the stringify call cannot throw. -/
def jsonStringify : JSValue → String
  | .undef => "null"
  | .null => "null"
  | .bool b => cond b "true" "false"
  | .num n => toString n
  | .str s => jsonEscape s
  | .arr elems => "[" ++ String.intercalate "," (jsonStringifyElems elems) ++ "]"
  | .obj fields => "\x7b" ++ String.intercalate "," (jsonStringifyFields fields) ++ "\x7d"

def jsonStringifyElems : List JSValue → List String
  | [] => []
  | .undef :: rest => "null" :: jsonStringifyElems rest
  | v :: rest => jsonStringify v :: jsonStringifyElems rest

def jsonStringifyFields : List (String × JSValue) → List String
  | [] => []
  | (_, .undef) :: rest => jsonStringifyFields rest
  | (k, v) :: rest => (jsonEscape k ++ ":" ++ jsonStringify v) :: jsonStringifyFields rest

end

/-- The unreserved characters of encodeURIComponent, which are emitted
unencoded. -/
def isUnreservedChar (c : Char) : Bool :=
  c.isAlphanum || c == '-' || c == '_' || c == '.' || c == '!' ||
    c == '~' || c == '*' || c == '\'' || c == '(' || c == ')'

/-- Percent encoding of one byte. -/
def percentEncodeByte (b : UInt8) : String :=
  "%" ++ String.singleton (hexDigitChar (b.toNat / 16)) ++
    String.singleton (hexDigitChar (b.toNat % 16))

/-- encodeURIComponent: unreserved characters pass through, all others are
percent encoded byte by byte in UTF-8. -/
def encodeURIComponent (s : String) : String :=
  String.join (s.data.map (fun c =>
    if isUnreservedChar c then String.singleton c
    else String.join (((String.singleton c).toUTF8.toList.map percentEncodeByte))))

/-- JS String.replace with a string pattern: replaces only the first
occurrence of the pattern. -/
def replaceFirst (s pat rep : String) : String :=
  match s.splitOn pat with
  | [] => s
  | [x] => x
  | x :: y :: rest => x ++ rep ++ String.intercalate pat (y :: rest)

/-- The pagination counters maintained by executeApiTool. -/
structure PaginationInfo where
  hasMorePages : Bool
  totalPages : Nat
  currentPage : Nat

/-- The pagination metadata object attached to the result. -/
def PaginationInfo.toJS (p : PaginationInfo) : JSValue :=
  .obj [("hasMorePages", .bool p.hasMorePages),
        ("totalPages", .num p.totalPages),
        ("currentPage", .num p.currentPage)]

/-- An axios error as consumed by formatApiError: either it carries an
upstream HTTP response (status, status text and optional body), or only the
request went out (network error, with an optional transport code), or the
request could not even be set up.  Absent strings are modelled as the empty
string, which is exactly what the truthiness tests in formatApiError treat
as absent. -/
structure AxiosError where
  hasResponse : Bool
  status : Nat
  statusText : String
  responseData : JSValue
  hasRequest : Bool
  code : String
  message : String

/-- The 200-character truncation applied to error response bodies, with an
ellipsis marker when the body was longer. -/
def truncateResp (s : String) : String :=
  (s.take 200) ++ (if 200 < s.length then "..." else "")

/-- formatApiError: renders an axios error into the single textual message
returned to the caller. -/
def formatApiError (e : AxiosError) : String :=
  if e.hasResponse then
    let base := "API Error: Status " ++ toString e.status ++ " (" ++
      (if e.statusText != "" then e.statusText else "Status text not available") ++ "). "
    match e.responseData with
    | .str s => base ++ "Response: " ++ truncateResp s
    | d =>
      if truthy d then base ++ "Response: " ++ truncateResp (jsonStringify d)
      else base ++ "No response body received."
  else if e.hasRequest then
    "API Network Error: No response received from server." ++
      (if e.code != "" then " (Code: " ++ e.code ++ ")" else "")
  else
    "API request failed." ++ "API Request Setup Error: " ++ e.message

/-- One declared property of an input schema: its name and its declared
primitive JSON type tag. -/
structure PropSchema where
  name : String
  jsType : String

/-- Whether a present argument value matches a declared JSON type tag. -/
def typeMatches (t : String) (v : JSValue) : Bool :=
  match t with
  | "string" => match v with | .str _ => true | _ => false
  | "number" => match v with | .num _ => true | _ => false
  | "boolean" => match v with | .bool _ => true | _ => false
  | "object" => match v with | .obj _ => true | _ => false
  | "array" => match v with | .arr _ => true | _ => false
  | _ => true

/-- Modelled from the spec: the runtime validator that
getZodSchemaFromJsonSchema compiles from the JSON input schema of an
operation through the external json-schema-to-zod dependency, whose
generated code is not part of this repository.  Per the spec, section 4.1:
the strict variant enforces required fields and the declared primitive type
of each declared property while preserving additional, undeclared
properties (pass-through semantics); the permissive variant, used when
schema compilation fails, accepts everything.  Nested object schemas are
elided: the claims under proof only exercise top-level checks. -/
inductive CompiledValidator where
  | strict (props : List PropSchema) (required : List String)
  | permissive

/-- Modelled from the spec: running the compiled validator on the raw
arguments, as zodSchema.parse does.  A required property must be present
(an explicitly undefined value counts as absent); every declared property
that is present must match its declared type; all properties of the input,
declared or not, are preserved in the output. -/
def validateArgs : CompiledValidator → List (String × JSValue) →
    Except String (List (String × JSValue))
  | .permissive, args => .ok args
  | .strict props required, args =>
    if (required.all (fun r => !(isUndef (lookupJS args r)))) &&
       (props.all (fun p =>
          isUndef (lookupJS args p.name) || typeMatches p.jsType (lookupJS args p.name))) then
      .ok args
    else
      .error "invalid arguments"

/-- One execution parameter binding of an operation: the argument name and
the location it binds to (the source field named in is modelled as
location, since in is reserved). -/
structure ParamDef where
  name : String
  location : String

/-- A tool definition from the static catalog.  The inputSchema field is
represented by its compiled validator (see CompiledValidator). -/
structure McpToolDefinition where
  name : String
  method : String
  pathTemplate : String
  executionParameters : List ParamDef
  requestBodyContentType : Option String
  validator : CompiledValidator

/-- Truthiness of the requestBodyContentType field, which the source tests
with a plain truthiness check. -/
def ctPresent : Option String → Bool
  | none => false
  | some s => s != ""

/-- The process environment values the engine reads for basic auth; the
source defaults both to the empty string when unset. -/
structure Env where
  gongAccessKey : String
  gongSecret : String

/-- One concrete HTTP request as assembled by the engine.  The URL sent on
the wire is path followed by the URL-encoded queryParams; the query is kept
structured here (URLSearchParams encoding is injective on keys), and the
performed path substitutions are recorded in pathParams alongside the
substituted path string. -/
structure HttpRequest where
  method : String
  path : String
  pathParams : List (String × String)
  queryParams : List (String × JSValue)
  body : Option JSValue

/-- The tool call result, reduced to its one textual content item: ok data
renders as JSON.stringify of the merged data, the three error constructors
carry the exact text returned from the catch blocks of executeApiTool. -/
inductive ToolOutcome where
  | ok (data : JSValue)
  | validationError (msg : String)
  | apiError (msg : String)
  | unexpectedError (msg : String)

/-- A finished engine invocation: the HTTP requests actually issued, in
order, and the outcome returned to the caller. -/
structure EngineRun where
  requests : List HttpRequest
  outcome : ToolOutcome

/-- Whether pagination was requested: the source reads paginate from the
raw (pre-validation) arguments and treats exactly the boolean true and the
literal string true as a request to paginate. -/
def shouldPaginateOf (toolArgs : List (String × JSValue)) : Bool :=
  match lookupJS toolArgs "paginate" with
  | .bool b => b
  | .str s => s == "true"
  | _ => false

/-- Extraction of the next cursor from a response body: the ordered
truthiness-based fallback probe of the source, records.nextPageCursor, else
nextPageCursor, else cursor, else null, written with optional chaining. -/
def extractNextCursor (data : JSValue) : JSValue :=
  jsOr (optGet (optGet data "records") "nextPageCursor")
    (jsOr (optGet data "nextPageCursor") (jsOr (optGet data "cursor") .null))

/-- Path parameter substitution: for every path-bound parameter whose
argument is not undefined, the first occurrence of its brace-wrapped name
in the template is replaced by the percent-encoded string coercion of the
value. -/
def substPathParams (tmpl : String) (params : List ParamDef)
    (args : List (String × JSValue)) : String :=
  params.foldl (fun url p =>
    if p.location == "path" then
      if !(isUndef (lookupJS args p.name)) then
        replaceFirst url ("\x7b" ++ p.name ++ "\x7d")
          (encodeURIComponent (jsToString (lookupJS args p.name)))
      else url
    else url) tmpl

/-- The path substitutions actually performed, as (name, encoded value)
pairs, recorded for the request log. -/
def performedPathParams (params : List ParamDef) (args : List (String × JSValue)) :
    List (String × String) :=
  (params.filter (fun p => p.location == "path" && !(isUndef (lookupJS args p.name)))).map
    (fun p => (p.name, encodeURIComponent (jsToString (lookupJS args p.name))))

/-- One step of the query assembly loop: a query-bound parameter whose
argument is not undefined is added under its name. -/
def qpStep (args : List (String × JSValue)) (qp : List (String × JSValue))
    (p : ParamDef) : List (String × JSValue) :=
  if p.location == "query" then
    if !(isUndef (lookupJS args p.name)) then setEntry qp p.name (lookupJS args p.name)
    else qp
  else qp

/-- Query parameter assembly: every query-bound parameter whose argument is
not undefined is added under its name. -/
def buildQueryParams (params : List ParamDef) (args : List (String × JSValue)) :
    List (String × JSValue) :=
  params.foldl (qpStep args) []

/-- Assembly of one HTTP request from the validated arguments and the
current cursor: path substitution, query assembly, the conditional cursor
injection into the query (when the cursor is truthy and the operation
declares a cursor query parameter), and the request body (a copy of the
requestBody argument, with the cursor injected into the copy when the
cursor is truthy and pagination was requested). -/
def buildRequest (defn : McpToolDefinition) (validatedArgs : List (String × JSValue))
    (shouldPaginate : Bool) (cursor : JSValue) : HttpRequest :=
  let path := substPathParams defn.pathTemplate defn.executionParameters validatedArgs
  let qp0 := buildQueryParams defn.executionParameters validatedArgs
  let qp :=
    if truthy cursor &&
        defn.executionParameters.any (fun p => p.name == "cursor" && p.location == "query") then
      setEntry qp0 "cursor" cursor
    else qp0
  let rb := lookupJS validatedArgs "requestBody"
  let body :=
    if ctPresent defn.requestBodyContentType && truthy rb then
      some (JSValue.obj
        (if truthy cursor && shouldPaginate then setEntry (objSpread rb) "cursor" cursor
         else objSpread rb))
    else none
  { method := defn.method, path := path,
    pathParams := performedPathParams defn.executionParameters validatedArgs,
    queryParams := qp, body := body }

/-- The shape-directed merge of one later page into an accumulator holding
a recognized array-bearing field: the accumulator field and the new page
field are spread into a fresh array stored under the same field name, and
the accumulator nextPageCursor is overwritten with the latest cursor. -/
def mergeField (allData newItems nextCursor : JSValue) (field : String) :
    Except String JSValue := do
  let old ← jsSpreadList (optGet allData field)
  let new ← jsSpreadList newItems
  let ad ← setF allData field (.arr (old ++ new))
  setF ad "nextPageCursor" nextCursor

/-- One merge step of the pagination loop.  On a falsy accumulator the page
becomes the accumulator.  Otherwise the branches of the source are probed
in order on the current page: a truthy array under records, calls, users or
results merges under that field; a page that is itself an array
concatenates; any other page is pushed onto the additionalPages side array
of the accumulator.  Property reads on the current page are plain accesses
and throw on null or undefined pages; reads on the accumulator are safe
because the accumulator is truthy here. -/
def mergeStep (allData data nextCursor : JSValue) : Except String JSValue :=
  if !(truthy allData) then .ok data
  else do
    let recs ← getFE data "records"
    if truthy recs && isArray recs then
      mergeField allData recs nextCursor "records"
    else
      let calls ← getFE data "calls"
      if truthy calls && isArray calls then
        mergeField allData calls nextCursor "calls"
      else
        let users ← getFE data "users"
        if truthy users && isArray users then
          mergeField allData users nextCursor "users"
        else
          let results ← getFE data "results"
          if truthy results && isArray results then
            mergeField allData results nextCursor "results"
          else
            if isArray data then do
              let old ← jsSpreadList allData
              let new ← jsSpreadList data
              .ok (.arr (old ++ new))
            else do
              let ap := jsOr (optGet allData "additionalPages") (.arr [])
              let newAp ← jsPush ap data
              setF allData "additionalPages" newAp

/-- The do-while pagination loop of executeApiTool, rendered as structural
recursion over the list of upstream responses (the response the network
returns for the i-th issued request is the i-th list element; a successful
transport gives ok with the parsed body, a failed one gives error with the
axios error).  Each iteration assembles a request, checks the basic-auth
credentials (throwing, hence returning the unexpected-error payload, when
either is missing, before any request is issued), consumes one response,
extracts the next cursor, updates the pagination counters, merges the page,
and either recurses (cursor truthy and pagination requested) or attaches
the pagination metadata and returns.  The value none is a model artifact
meaning the supplied response list was shorter than the run; a real
upstream always answers, so every theorem works with runs that return
some. -/
def stepPInfo (pinfo : PaginationInfo) (hasMore : Bool) : PaginationInfo :=
  { hasMorePages := hasMore,
    totalPages := if hasMore then pinfo.totalPages + 1 else pinfo.totalPages,
    currentPage := if hasMore then pinfo.currentPage + 1 else pinfo.currentPage }

def paginationLoop (defn : McpToolDefinition) (validatedArgs : List (String × JSValue))
    (shouldPaginate : Bool) (env : Env)
    (pages : List (Except AxiosError JSValue)) (cursor allData : JSValue)
    (pinfo : PaginationInfo) : Option EngineRun :=
    if env.gongAccessKey == "" || env.gongSecret == "" then
      some ⟨[], .unexpectedError "Unexpected error: Missing Gong credentials in environment"⟩
    else
      match pages with
      | [] => none
      | .error e :: _ =>
        some ⟨[buildRequest defn validatedArgs shouldPaginate cursor],
              .apiError (formatApiError e)⟩
      | .ok data :: rest =>
        match mergeStep allData data (extractNextCursor data) with
        | .error msg =>
          some ⟨[buildRequest defn validatedArgs shouldPaginate cursor],
                .unexpectedError ("Unexpected error: " ++ msg)⟩
        | .ok newAll =>
          if truthy (extractNextCursor data) && shouldPaginate then
            match paginationLoop defn validatedArgs shouldPaginate env rest
                (extractNextCursor data) newAll
                (stepPInfo pinfo (truthy (extractNextCursor data) && shouldPaginate)) with
            | none => none
            | some run =>
              some ⟨buildRequest defn validatedArgs shouldPaginate cursor :: run.requests,
                    run.outcome⟩
          else
            match setF newAll "_paginationInfo"
                (stepPInfo pinfo (truthy (extractNextCursor data) && shouldPaginate)).toJS with
            | .error msg =>
              some ⟨[buildRequest defn validatedArgs shouldPaginate cursor],
                    .unexpectedError ("Unexpected error: " ++ msg)⟩
            | .ok finalData =>
              some ⟨[buildRequest defn validatedArgs shouldPaginate cursor], .ok finalData⟩

/-- The initial cursor of a run, taken from the caller arguments: from
requestBody.cursor for body operations with a truthy requestBody, else from
the top-level cursor argument, else null. -/
def initialCursorOf (defn : McpToolDefinition) (validatedArgs : List (String × JSValue)) :
    JSValue :=
  if ctPresent defn.requestBodyContentType && truthy (lookupJS validatedArgs "requestBody") then
    jsOr (optGet (lookupJS validatedArgs "requestBody") "cursor") .null
  else
    jsOr (lookupJS validatedArgs "cursor") .null

/-- executeApiTool: validates the raw arguments (a validation failure
returns the validation-error payload and issues no request), reads and
strips the paginate sentinel, seeds the cursor from the caller arguments,
and runs the pagination loop starting from a null accumulator and page
counters equal to one. -/
def executeApiTool (defn : McpToolDefinition) (toolArgs : List (String × JSValue))
    (env : Env) (pages : List (Except AxiosError JSValue)) : Option EngineRun :=
  match validateArgs defn.validator toolArgs with
  | .error msg => some ⟨[], .validationError ("Validation error: " ++ msg)⟩
  | .ok validated0 =>
    paginationLoop defn (removeField validated0 "paginate") (shouldPaginateOf toolArgs)
      env pages (initialCursorOf defn (removeField validated0 "paginate")) .null
      ⟨false, 1, 1⟩

/-- The postv2callsextensive catalog entry: POST /v2/calls/extensive with a
JSON request body; its schema declares requestBody (object, required) and
paginate (boolean). -/
def postv2callsextensiveDef : McpToolDefinition :=
  { name := "postv2callsextensive", method := "post",
    pathTemplate := "/v2/calls/extensive", executionParameters := [],
    requestBodyContentType := some "application/json",
    validator := .strict [⟨"requestBody", "object"⟩, ⟨"paginate", "boolean"⟩] ["requestBody"] }

/-- The getv2users catalog entry: GET /v2/users with a cursor query
parameter; its schema declares cursor (string) and paginate (boolean), none
required. -/
def getv2usersDef : McpToolDefinition :=
  { name := "getv2users", method := "get", pathTemplate := "/v2/users",
    executionParameters := [⟨"cursor", "query"⟩],
    requestBodyContentType := none,
    validator := .strict [⟨"cursor", "string"⟩, ⟨"paginate", "boolean"⟩] [] }

/-- The getv2callsbyid catalog entry: GET /v2/calls/(id) with a path
parameter; its schema declares id (string, required). -/
def getv2callsbyidDef : McpToolDefinition :=
  { name := "getv2callsbyid", method := "get",
    pathTemplate := "/v2/calls/\x7bid\x7d",
    executionParameters := [⟨"id", "path"⟩],
    requestBodyContentType := none,
    validator := .strict [⟨"id", "string"⟩] ["id"] }

/-- Modelled from source lines 180-182: the environment variable name
acquireOAuth2Token reads the OAuth2 client id from.  The template literal
in the source contains no interpolation, so the scheme name argument does
not enter the name. -/
def oauthClientIdEnvVar (_schemeName : String) : String :=
  "OAUTH_CLIENT_ID_SCHEMENAME"

/-- The environment variable name acquireOAuth2Token reads the OAuth2
client secret from (source line 181, uninterpolated template literal). -/
def oauthClientSecretEnvVar (_schemeName : String) : String :=
  "OAUTH_CLIENT_SECRET_SCHEMENAME"

/-- The environment variable name acquireOAuth2Token reads the OAuth2
scopes from (source line 182, uninterpolated template literal). -/
def oauthScopesEnvVar (_schemeName : String) : String :=
  "OAUTH_SCOPES_SCHEMENAME"

/-- A response body carrying both a records.nextPageCursor field (present,
but holding the empty string) and a truthy top-level cursor field. -/
def c2Body : JSValue :=
  .obj [("records", .obj [("nextPageCursor", .str "")]), ("cursor", .str "x")]

/-- First upstream page of the shape-switch scenario: a calls array plus a
next cursor. -/
def c4FirstPage : JSValue :=
  .obj [("calls", .arr [.str "a"]), ("nextPageCursor", .str "n1")]

/-- Second upstream page of the shape-switch scenario: the array-bearing
field name has changed from calls to users. -/
def c4SecondPage : JSValue :=
  .obj [("users", .arr [.str "b"])]

theorem lookupJS_cons (kv : String × JSValue) (rest : List (String × JSValue))
    (k : String) :
    lookupJS (kv :: rest) k = if kv.1 == k then kv.2 else lookupJS rest k := rfl

theorem lookupJS_append (l1 l2 : List (String × JSValue)) (k : String) :
    lookupJS (l1 ++ l2) k =
      if l1.any (fun kv => kv.1 == k) then lookupJS l1 k else lookupJS l2 k := by
  induction l1 with
  | nil => simp [lookupJS]
  | cons kv rest ih =>
    by_cases h : kv.1 = k
    · have hb : (kv.1 == k) = true := by simpa using h
      simp [lookupJS_cons, hb]
    · have hb : (kv.1 == k) = false := by simpa using h
      have hor : (kv.1 == k || rest.any fun kv => kv.1 == k) = (rest.any fun kv => kv.1 == k) := by
        rw [hb, Bool.false_or]
      rw [List.cons_append, lookupJS_cons, List.any_cons, hor, lookupJS_cons]
      simp only [hb, Bool.false_eq_true, if_false]
      exact ih

theorem lookupJS_mapSet (fields : List (String × JSValue)) (k : String) (v : JSValue)
    (h : fields.any (fun kv => kv.1 == k) = true) :
    lookupJS (fields.map (fun kv => if kv.1 == k then (k, v) else kv)) k = v := by
  induction fields with
  | nil => simp at h
  | cons kv rest ih =>
    rw [List.map_cons]
    by_cases hk : kv.1 = k
    · have hb : (kv.1 == k) = true := by simpa using hk
      have hf : (if (kv.1 == k) = true then (k, v) else kv) = (k, v) := by
        rw [hb]; simp
      rw [hf, lookupJS_cons]
      simp
    · have hb : (kv.1 == k) = false := by simpa using hk
      have hrest : rest.any (fun kv => kv.1 == k) = true := by
        simpa [List.any_cons, hb] using h
      have hf : (if (kv.1 == k) = true then (k, v) else kv) = kv := by
        rw [hb]; simp
      rw [hf, lookupJS_cons]
      simp only [hb, Bool.false_eq_true, if_false]
      exact ih hrest

theorem lookupJS_setEntry_self (fields : List (String × JSValue)) (k : String)
    (v : JSValue) : lookupJS (setEntry fields k v) k = v := by
  unfold setEntry
  cases hany : fields.any (fun kv => kv.1 == k) with
  | true =>
    rw [if_pos rfl]
    exact lookupJS_mapSet fields k v hany
  | false =>
    rw [if_neg (by simp)]
    rw [lookupJS_append]
    simp [hany, lookupJS]

theorem setEntry_keys_subset (fields : List (String × JSValue)) (k : String)
    (v : JSValue) (k' : String) (h1 : k' ∉ fields.map Prod.fst) (h2 : k' ≠ k) :
    k' ∉ (setEntry fields k v).map Prod.fst := by
  unfold setEntry
  cases hany : fields.any (fun kv => kv.1 == k) with
  | true =>
    rw [if_pos rfl]
    simp only [List.map_map, List.mem_map, Function.comp]
    rintro ⟨a, hmem, heq⟩
    by_cases ha : a.1 = k
    · rw [if_pos (by simpa using ha)] at heq
      exact h2 (by simpa using heq.symm)
    · rw [if_neg (by simpa using ha)] at heq
      exact h1 (List.mem_map.mpr ⟨a, hmem, heq⟩)
  | false =>
    rw [if_neg (by simp)]
    simp only [List.map_append, List.mem_append]
    rintro (hl | hr)
    · exact h1 hl
    · simp only [List.map_cons, List.map_nil, List.mem_singleton] at hr
      exact h2 hr

theorem lookupJS_removeField_self (fields : List (String × JSValue)) (k : String) :
    lookupJS (removeField fields k) k = .undef := by
  induction fields with
  | nil => rfl
  | cons kv rest ih =>
    rw [removeField, List.filter_cons]
    by_cases h : kv.1 = k
    · simp only [show (!(kv.1 == k)) = false by simp [h], Bool.false_eq_true, if_false]
      exact ih
    · simp only [show (!(kv.1 == k)) = true by simp [h], if_true]
      rw [lookupJS_cons]
      simp only [show (kv.1 == k) = false by simpa using h, Bool.false_eq_true, if_false]
      exact ih

theorem lookupJS_removeField_ne (fields : List (String × JSValue)) (k k' : String)
    (h : k' ≠ k) : lookupJS (removeField fields k) k' = lookupJS fields k' := by
  induction fields with
  | nil => rfl
  | cons kv rest ih =>
    rw [removeField, List.filter_cons]
    by_cases hk : kv.1 = k
    · have hkk : (kv.1 == k') = false := by
        simp only [beq_eq_false_iff_ne, ne_eq, hk]
        exact fun hh => h hh.symm
      simp only [show (!(kv.1 == k)) = false by simp [hk], Bool.false_eq_true, if_false]
      rw [lookupJS_cons]
      simp only [hkk, Bool.false_eq_true, if_false]
      exact ih
    · simp only [show (!(kv.1 == k)) = true by simp [hk], if_true]
      rw [lookupJS_cons, lookupJS_cons]
      by_cases hkk : kv.1 = k'
      · simp [show (kv.1 == k') = true by simpa using hkk]
      · simp only [show (kv.1 == k') = false by simpa using hkk, Bool.false_eq_true, if_false]
        exact ih

theorem lookupJS_eq_undef_of_not_mem (fields : List (String × JSValue)) (k : String)
    (h : k ∉ fields.map Prod.fst) : lookupJS fields k = .undef := by
  induction fields with
  | nil => rfl
  | cons kv rest ih =>
    simp only [List.map_cons, List.mem_cons] at h
    push_neg at h
    rw [lookupJS_cons]
    rw [show (kv.1 == k) = false by simp; exact fun hh => h.1 hh.symm]
    simp only [Bool.false_eq_true, if_false]
    exact ih h.2

/-- Bind on a successful Except computes the continuation. -/
theorem exceptBind_ok {ε α β : Type} (x : α) (f : α → Except ε β) :
    (Except.ok (ε := ε) x >>= f) = f x := rfl

/-- C4 as amended: merging is keyed on the shape of each later page, not on
a field name remembered from earlier pages.  A later page carrying none of
the recognized array-bearing fields (records, calls, users, results) and
not itself an array is pushed onto the additionalPages side array of the
accumulator, so such pages are preserved; a later page whose recognized
field does not match an array already present on the accumulator instead
makes the whole call fail with an unexpected-error payload (see the
counterexample), so preservation holds only for the no-recognized-field
shape. -/
theorem c4_unrecognized_page_to_additionalPages
    (accFields pageFields : List (String × JSValue)) (cursor : JSValue)
    (ap : List JSValue)
    (hrec : (truthy (lookupJS pageFields "records") &&
        isArray (lookupJS pageFields "records")) = false)
    (hcalls : (truthy (lookupJS pageFields "calls") &&
        isArray (lookupJS pageFields "calls")) = false)
    (husers : (truthy (lookupJS pageFields "users") &&
        isArray (lookupJS pageFields "users")) = false)
    (hresults : (truthy (lookupJS pageFields "results") &&
        isArray (lookupJS pageFields "results")) = false)
    (hap : jsOr (optGet (.obj accFields) "additionalPages") (.arr []) = .arr ap) :
    mergeStep (.obj accFields) (.obj pageFields) cursor =
      .ok (.obj (setEntry accFields "additionalPages"
        (.arr (ap ++ [.obj pageFields])))) := by
  unfold mergeStep
  rw [if_neg (by simp [truthy])]
  rw [show getFE (.obj pageFields) "records" = .ok (lookupJS pageFields "records") from rfl,
    exceptBind_ok]
  rw [if_neg (by simp [hrec])]
  rw [show getFE (.obj pageFields) "calls" = .ok (lookupJS pageFields "calls") from rfl,
    exceptBind_ok]
  rw [if_neg (by simp [hcalls])]
  rw [show getFE (.obj pageFields) "users" = .ok (lookupJS pageFields "users") from rfl,
    exceptBind_ok]
  rw [if_neg (by simp [husers])]
  rw [show getFE (.obj pageFields) "results" = .ok (lookupJS pageFields "results") from rfl,
    exceptBind_ok]
  rw [if_neg (by simp [hresults])]
  rw [if_neg (by simp [isArray])]
  rw [hap]
  rfl

/-- C4 amended witness: a later page with no recognized array-bearing field
is appended to additionalPages on a concrete accumulator. -/
theorem c4_unrecognized_page_to_additionalPages_witness :
    ((truthy (lookupJS [("foo", JSValue.num 1)] "records") &&
        isArray (lookupJS [("foo", JSValue.num 1)] "records")) = false) ∧
    (jsOr (optGet (.obj [("calls", JSValue.arr [.str "a"])]) "additionalPages")
        (.arr []) = .arr []) ∧
    mergeStep (.obj [("calls", JSValue.arr [.str "a"])])
        (.obj [("foo", JSValue.num 1)]) .null
      = .ok (.obj (setEntry [("calls", JSValue.arr [.str "a"])] "additionalPages"
          (.arr ([] ++ [.obj [("foo", JSValue.num 1)]])))) :=
  ⟨rfl, rfl,
    c4_unrecognized_page_to_additionalPages
      [("calls", JSValue.arr [.str "a"])] [("foo", JSValue.num 1)] .null []
      rfl rfl rfl rfl rfl⟩

/-- Unfolding executeApiTool on successful validation. -/
theorem executeApiTool_validated (defn : McpToolDefinition)
    (toolArgs validated : List (String × JSValue)) (env : Env)
    (pages : List (Except AxiosError JSValue))
    (hval : validateArgs defn.validator toolArgs = .ok validated) :
    executeApiTool defn toolArgs env pages =
      paginationLoop defn (removeField validated "paginate") (shouldPaginateOf toolArgs)
        env pages (initialCursorOf defn (removeField validated "paginate")) .null
        ⟨false, 1, 1⟩ := by
  unfold executeApiTool
  rw [hval]

/-- Unfolding executeApiTool on failed validation. -/
theorem executeApiTool_invalid (defn : McpToolDefinition)
    (toolArgs : List (String × JSValue)) (env : Env)
    (pages : List (Except AxiosError JSValue)) (msg : String)
    (hval : validateArgs defn.validator toolArgs = .error msg) :
    executeApiTool defn toolArgs env pages =
      some ⟨[], .validationError ("Validation error: " ++ msg)⟩ := by
  unfold executeApiTool
  rw [hval]

/-- A loop invocation whose first response succeeds and does not lead to a
continuation (next cursor falsy or pagination not requested) issues exactly
one request and attaches the metadata of a single page; the attach
succeeds. -/
theorem paginationLoop_single_page_ok (defn : McpToolDefinition)
    (va : List (String × JSValue)) (sp : Bool) (env : Env) (body cursor0 : JSValue)
    (rest : List (Except AxiosError JSValue)) (d : JSValue)
    (hkey : (env.gongAccessKey == "") = false) (hsec : (env.gongSecret == "") = false)
    (hstop : (truthy (extractNextCursor body) && sp) = false)
    (hset : setF body "_paginationInfo" (PaginationInfo.toJS ⟨false, 1, 1⟩) = .ok d) :
    paginationLoop defn va sp env (.ok body :: rest) cursor0 .null ⟨false, 1, 1⟩
      = some ⟨[buildRequest defn va sp cursor0], .ok d⟩ := by
  unfold paginationLoop
  rw [if_neg (by simp [hkey, hsec])]
  simp only [hstop, Bool.false_eq_true, if_false]
  rw [show mergeStep .null body (extractNextCursor body) = .ok body from by
    unfold mergeStep; rw [if_pos (by simp [truthy])]]
  simp only [stepPInfo, Bool.false_eq_true, if_false, PaginationInfo.toJS] at hset ⊢
  rw [hset]

/-- Same single-page shape, but the metadata attach fails (the accumulated
body is not an object or array), producing the unexpected-error payload. -/
theorem paginationLoop_single_page_err (defn : McpToolDefinition)
    (va : List (String × JSValue)) (sp : Bool) (env : Env) (body cursor0 : JSValue)
    (rest : List (Except AxiosError JSValue)) (msg : String)
    (hkey : (env.gongAccessKey == "") = false) (hsec : (env.gongSecret == "") = false)
    (hstop : (truthy (extractNextCursor body) && sp) = false)
    (hset : setF body "_paginationInfo" (PaginationInfo.toJS ⟨false, 1, 1⟩) = .error msg) :
    paginationLoop defn va sp env (.ok body :: rest) cursor0 .null ⟨false, 1, 1⟩
      = some ⟨[buildRequest defn va sp cursor0],
          .unexpectedError ("Unexpected error: " ++ msg)⟩ := by
  unfold paginationLoop
  rw [if_neg (by simp [hkey, hsec])]
  simp only [hstop, Bool.false_eq_true, if_false]
  rw [show mergeStep .null body (extractNextCursor body) = .ok body from by
    unfold mergeStep; rw [if_pos (by simp [truthy])]]
  simp only [stepPInfo, Bool.false_eq_true, if_false, PaginationInfo.toJS] at hset ⊢
  rw [hset]

/-- A concrete axios error with an HTTP response, used to exercise the
error path of the engine. -/
def c7Err : AxiosError :=
  { hasResponse := true, status := 500, statusText := "Server Error",
    responseData := .obj [("message", .str "boom")], hasRequest := true,
    code := "", message := "Request failed" }

/-- The concrete run of the engine against a first page that fails. -/
def c7Run : EngineRun :=
  (executeApiTool getv2usersDef [] ⟨"k", "s"⟩ [.error c7Err]).getD ⟨[], .ok .null⟩

/-- The merged data of a concrete successful single-page run over an empty
object body. -/
def c9Data : JSValue :=
  .obj [("_paginationInfo",
    .obj [("hasMorePages", .bool false), ("totalPages", .num 1),
          ("currentPage", .num 1)])]

/-- The pagination metadata fields of that run. -/
def c9PiFields : List (String × JSValue) :=
  [("hasMorePages", .bool false), ("totalPages", .num 1), ("currentPage", .num 1)]

/-- The concrete successful run behind the C9 witness. -/
def c9Run : EngineRun :=
  (executeApiTool getv2usersDef [] ⟨"k", "s"⟩ [.ok (.obj [])]).getD ⟨[], .ok .null⟩

/-- Concrete arguments for the paginate-stripping witness: a body operation
called with the paginate sentinel set. -/
def c5Args : List (String × JSValue) :=
  [("requestBody", .obj [("filter", .obj [])]), ("paginate", .bool true)]

/-- The concrete run behind the paginate-stripping witness. -/
def c5Run : EngineRun :=
  (executeApiTool postv2callsextensiveDef c5Args ⟨"k", "s"⟩ [.ok (.obj [])]).getD
    ⟨[], .ok .null⟩

/-- The single request issued in that run. -/
def c5Req : HttpRequest :=
  c5Run.requests.headD ⟨"", "", [], [], none⟩

/-- C1: for a calls-shaped operation invoked with paginate set to true,
given three successive pages whose calls arrays hold 2, 2 and 1 items (the
first two pages carrying a next cursor inside their records object, the
third none), the merged result holds a calls array of length 5 with the
earlier pages first, and the attached pagination metadata reports
totalPages 3 and hasMorePages false. -/
theorem c1_three_page_calls_merge (a b c d e : JSValue) :
    (executeApiTool postv2callsextensiveDef
        [("requestBody", .obj [("filter", .obj [])]), ("paginate", .bool true)]
        ⟨"key", "secret"⟩
        [.ok (.obj [("records", .obj [("nextPageCursor", .str "cur1")]), ("calls", .arr [a, b])]),
         .ok (.obj [("records", .obj [("nextPageCursor", .str "cur2")]), ("calls", .arr [c, d])]),
         .ok (.obj [("records", .obj []), ("calls", .arr [e])])]).map (fun r => r.outcome)
      = some (.ok (.obj
          [("records", .obj [("nextPageCursor", .str "cur1")]),
           ("calls", .arr [a, b, c, d, e]),
           ("nextPageCursor", .null),
           ("_paginationInfo", .obj
             [("hasMorePages", .bool false), ("totalPages", .num 3), ("currentPage", .num 3)])])) :=
  rfl

/-- C2 counterexample: a response body where records.nextPageCursor is
present (holding the empty string) and a top-level cursor is also present;
the engine extracts the top-level cursor, not the present
records.nextPageCursor, because the probe tests truthiness, not
presence. -/
theorem c2_presence_probe_counterexample :
    optGet (optGet c2Body "records") "nextPageCursor" = .str "" ∧
    extractNextCursor c2Body = .str "x" ∧
    JSValue.str "x" ≠ JSValue.str "" :=
  ⟨rfl, rfl, by simp⟩

/-- C2 as amended: the next cursor is extracted by the fixed ordered probe
records.nextPageCursor, else nextPageCursor, else cursor, else null, where
each candidate is taken only when truthy (not undefined, null, false, zero
or the empty string); in particular, for a response carrying both a
non-empty records.nextPageCursor and a top-level cursor, the engine selects
records.nextPageCursor. -/
theorem c2_truthiness_probe_order (d : JSValue) :
    (extractNextCursor d =
      (if truthy (optGet (optGet d "records") "nextPageCursor") then
        optGet (optGet d "records") "nextPageCursor"
      else if truthy (optGet d "nextPageCursor") then optGet d "nextPageCursor"
      else if truthy (optGet d "cursor") then optGet d "cursor"
      else .null)) ∧
    (∀ s t : String, s ≠ "" →
      extractNextCursor
          (.obj [("records", .obj [("nextPageCursor", .str s)]), ("cursor", .str t)])
        = .str s) := by
  constructor
  · rfl
  · intro s t hs
    show jsOr (.str s) _ = _
    simp [jsOr, truthy, hs]

/-- C2 witness: the amended probe at a concrete response. -/
theorem c2_truthiness_probe_order_witness :
    ("abc" : String) ≠ "" ∧
    extractNextCursor
        (.obj [("records", .obj [("nextPageCursor", .str "abc")]), ("cursor", .str "top")])
      = .str "abc" :=
  ⟨by decide, (c2_truthiness_probe_order (.null)).2 "abc" "top" (by decide)⟩

/-- C4 counterexample: with pagination requested, a first page bearing a
calls array and a next cursor followed by a second page bearing a users
array makes the whole call fail with the unexpected-error payload (the
merge spreads the absent users field of the accumulator), instead of
appending the second page under the originally chosen calls field or onto
an additionalPages side array; the successfully fetched pages are lost. -/
theorem c4_shape_switch_counterexample :
    (executeApiTool getv2usersDef [("paginate", .bool true)] ⟨"key", "secret"⟩
        [.ok c4FirstPage, .ok c4SecondPage]).map (fun r => r.outcome)
      = some (.unexpectedError "Unexpected error: TypeError: value is not iterable") :=
  rfl

/-- C8: the code reads the OAuth2 client id, client secret and scopes from
environment variable names that are fixed string constants, so two distinct
scheme identifiers read exactly the same configuration values; the names
are not derived from the scheme identifier.  This contradicts the spec and
the surrounding code (the function receives and logs the scheme name), and
is a code generator slip: the source template literals lack the
interpolation of schemeName. -/
theorem c8_oauth_env_names_ignore_scheme :
    oauthClientIdEnvVar "schemeA" = oauthClientIdEnvVar "schemeB" ∧
    oauthClientSecretEnvVar "schemeA" = oauthClientSecretEnvVar "schemeB" ∧
    oauthScopesEnvVar "schemeA" = oauthScopesEnvVar "schemeB" ∧
    ("schemeA" : String) ≠ "schemeB" :=
  ⟨rfl, rfl, rfl, by decide⟩

/-- C3: for every operation invoked without pagination (the paginate
sentinel absent, false, or anything the engine does not coerce to true),
exactly one HTTP request is issued regardless of whether the response body
contains a next cursor, and the single page body (here an arbitrary JSON
object, possibly holding a cursor) is returned unchanged except for the
attached pagination metadata, which reports currentPage 1, totalPages 1 and
hasMorePages false. -/
theorem c3_nonpaginated_single_request
    (defn : McpToolDefinition) (toolArgs validated : List (String × JSValue))
    (env : Env) (bodyFields : List (String × JSValue))
    (rest : List (Except AxiosError JSValue))
    (hval : validateArgs defn.validator toolArgs = .ok validated)
    (hpag : shouldPaginateOf toolArgs = false)
    (hkey : env.gongAccessKey ≠ "") (hsec : env.gongSecret ≠ "") :
    (executeApiTool defn toolArgs env (.ok (.obj bodyFields) :: rest)).map
        (fun r => (r.requests.length, r.outcome))
      = some (1, .ok (.obj (setEntry bodyFields "_paginationInfo"
          (.obj [("hasMorePages", .bool false), ("totalPages", .num 1),
                 ("currentPage", .num 1)])))) := by
  rw [executeApiTool_validated defn toolArgs validated env _ hval]
  rw [paginationLoop_single_page_ok _ _ _ _ (.obj bodyFields) _ _
        (.obj (setEntry bodyFields "_paginationInfo"
          (PaginationInfo.toJS ⟨false, 1, 1⟩)))
        (by simpa using hkey) (by simpa using hsec)
        (by rw [hpag, Bool.and_false]) rfl]
  rfl

/-- C3 witness: the single-page behavior at a concrete operation, with a
response that does contain a (top-level) cursor field. -/
theorem c3_nonpaginated_single_request_witness :
    validateArgs getv2usersDef.validator [] = .ok [] ∧
    shouldPaginateOf [] = false ∧
    ("k" : String) ≠ "" ∧ ("s" : String) ≠ "" ∧
    (executeApiTool getv2usersDef [] ⟨"k", "s"⟩
        [.ok (.obj [("users", .arr []), ("cursor", .str "zzz")])]).map
        (fun r => (r.requests.length, r.outcome))
      = some (1, .ok (.obj (setEntry [("users", .arr []), ("cursor", .str "zzz")]
          "_paginationInfo"
          (.obj [("hasMorePages", .bool false), ("totalPages", .num 1),
                 ("currentPage", .num 1)])))) :=
  ⟨rfl, rfl, by decide, by decide,
    c3_nonpaginated_single_request getv2usersDef [] [] ⟨"k", "s"⟩
      [("users", .arr []), ("cursor", .str "zzz")] [] rfl rfl
      (by decide) (by decide)⟩

/-- C6: for every strict compiled schema and every argument object that
satisfies it (required properties present, declared present properties
well-typed) while also containing an additional property k not declared in
the schema, validation succeeds and returns the argument object itself, so
the undeclared property is preserved, not stripped. -/
theorem c6_undeclared_properties_preserved
    (props : List PropSchema) (required : List String)
    (args : List (String × JSValue)) (k : String)
    (hreq : ∀ r ∈ required, isUndef (lookupJS args r) = false)
    (hdecl : ∀ p ∈ props, isUndef (lookupJS args p.name) = true ∨
        typeMatches p.jsType (lookupJS args p.name) = true)
    (hk : k ∈ args.map Prod.fst)
    (_hundecl : k ∉ props.map PropSchema.name) :
    validateArgs (.strict props required) args = .ok args ∧
      k ∈ args.map Prod.fst := by
  refine ⟨?_, hk⟩
  simp only [validateArgs]
  rw [if_pos]
  rw [Bool.and_eq_true]
  constructor
  · rw [List.all_eq_true]
    intro r hr
    simp [hreq r hr]
  · rw [List.all_eq_true]
    intro p hp
    rcases hdecl p hp with h | h <;> simp [h]

/-- C6 witness: the getv2users schema accepts an argument object carrying
an undeclared extra property and returns it unchanged. -/
theorem c6_undeclared_properties_preserved_witness :
    validateArgs (.strict [⟨"cursor", "string"⟩, ⟨"paginate", "boolean"⟩] [])
        [("cursor", .str "c"), ("extra", .num 7)]
      = .ok [("cursor", .str "c"), ("extra", .num 7)] ∧
    ("extra" : String) ∈
      ([("cursor", JSValue.str "c"), ("extra", JSValue.num 7)]).map Prod.fst :=
  c6_undeclared_properties_preserved
    [⟨"cursor", "string"⟩, ⟨"paginate", "boolean"⟩] []
    [("cursor", .str "c"), ("extra", .num 7)] "extra"
    (by simp) (by decide) (by decide) (by decide)

/-- Loop equation: missing credentials return the unexpected-error payload
with no request issued, whatever the pages. -/
theorem paginationLoop_creds_missing (defn : McpToolDefinition)
    (va : List (String × JSValue)) (sp : Bool) (env : Env)
    (hc : (env.gongAccessKey == "" || env.gongSecret == "") = true)
    (pages : List (Except AxiosError JSValue)) (cursor allData : JSValue)
    (pinfo : PaginationInfo) :
    paginationLoop defn va sp env pages cursor allData pinfo =
      some ⟨[], .unexpectedError "Unexpected error: Missing Gong credentials in environment"⟩ := by
  unfold paginationLoop
  rw [if_pos hc]

/-- Loop equation: an exhausted model response list yields the model
artifact none. -/
theorem paginationLoop_nil (defn : McpToolDefinition)
    (va : List (String × JSValue)) (sp : Bool) (env : Env)
    (hc : (env.gongAccessKey == "" || env.gongSecret == "") = false)
    (cursor allData : JSValue) (pinfo : PaginationInfo) :
    paginationLoop defn va sp env [] cursor allData pinfo = none := by
  unfold paginationLoop
  rw [if_neg (by simp [hc])]

/-- Loop equation: a failed response aborts with the formatted api error. -/
theorem paginationLoop_cons_error (defn : McpToolDefinition)
    (va : List (String × JSValue)) (sp : Bool) (env : Env)
    (hc : (env.gongAccessKey == "" || env.gongSecret == "") = false)
    (e : AxiosError) (tail : List (Except AxiosError JSValue))
    (cursor allData : JSValue) (pinfo : PaginationInfo) :
    paginationLoop defn va sp env (.error e :: tail) cursor allData pinfo =
      some ⟨[buildRequest defn va sp cursor], .apiError (formatApiError e)⟩ := by
  unfold paginationLoop
  rw [if_neg (by simp [hc])]

/-- Loop equation: one successful response is merged, and the loop either
recurses or finalizes depending on the extracted cursor and the paginate
flag. -/
theorem paginationLoop_cons_ok (defn : McpToolDefinition)
    (va : List (String × JSValue)) (sp : Bool) (env : Env)
    (hc : (env.gongAccessKey == "" || env.gongSecret == "") = false)
    (data : JSValue) (rest : List (Except AxiosError JSValue))
    (cursor allData : JSValue) (pinfo : PaginationInfo) :
    paginationLoop defn va sp env (.ok data :: rest) cursor allData pinfo =
      (match mergeStep allData data (extractNextCursor data) with
       | .error msg =>
         some ⟨[buildRequest defn va sp cursor],
               .unexpectedError ("Unexpected error: " ++ msg)⟩
       | .ok newAll =>
         if truthy (extractNextCursor data) && sp then
           match paginationLoop defn va sp env rest (extractNextCursor data) newAll
               (stepPInfo pinfo (truthy (extractNextCursor data) && sp)) with
           | none => none
           | some run =>
             some ⟨buildRequest defn va sp cursor :: run.requests, run.outcome⟩
         else
           match setF newAll "_paginationInfo"
               (stepPInfo pinfo (truthy (extractNextCursor data) && sp)).toJS with
           | .error msg =>
             some ⟨[buildRequest defn va sp cursor],
                   .unexpectedError ("Unexpected error: " ++ msg)⟩
           | .ok finalData =>
             some ⟨[buildRequest defn va sp cursor], .ok finalData⟩) := by
  conv_lhs => rw [paginationLoop.eq_def]
  rw [if_neg (by simp [hc])]

/-- How the loop relates its issued requests to the response stream: a run
that ends in a merged ok result consumed only successful responses, and a
run that consumed a failed response stops right there with the formatted
api error. -/
theorem paginationLoop_pages_spec (defn : McpToolDefinition)
    (va : List (String × JSValue)) (sp : Bool) (env : Env) :
    ∀ (pages : List (Except AxiosError JSValue)) (cursor allData : JSValue)
      (pinfo : PaginationInfo) (run : EngineRun),
      paginationLoop defn va sp env pages cursor allData pinfo = some run →
      ((∀ d, run.outcome = .ok d →
          ∀ i, i < run.requests.length → ∃ b, pages.get? i = some (.ok b)) ∧
       (∀ i e, pages.get? i = some (.error e) → i < run.requests.length →
          run.outcome = .apiError (formatApiError e) ∧
            run.requests.length = i + 1)) := by
  intro pages
  induction pages with
  | nil =>
    intro cursor allData pinfo run hrun
    cases hcred : (env.gongAccessKey == "" || env.gongSecret == "") with
    | true =>
      rw [paginationLoop_creds_missing defn va sp env hcred] at hrun
      have h := Option.some.inj hrun
      subst h
      exact ⟨fun d hd i hi => by simp at hi, fun i e hp hi => by simp at hi⟩
    | false =>
      rw [paginationLoop_nil defn va sp env hcred] at hrun
      exact absurd hrun (by simp)
  | cons resp rest ih =>
    intro cursor allData pinfo run hrun
    cases hcred : (env.gongAccessKey == "" || env.gongSecret == "") with
    | true =>
      rw [paginationLoop_creds_missing defn va sp env hcred] at hrun
      have h := Option.some.inj hrun
      subst h
      exact ⟨fun d hd i hi => by simp at hi, fun i e hp hi => by simp at hi⟩
    | false =>
      cases resp with
      | error e =>
        rw [paginationLoop_cons_error defn va sp env hcred e rest cursor allData pinfo] at hrun
        have h := Option.some.inj hrun
        subst h
        constructor
        · intro d hd
          exact absurd hd (by simp)
        · intro i e' hp hi
          simp only [List.length_cons, List.length_nil] at hi
          interval_cases i
          · simp only [List.get?] at hp
            have he : e = e' := Except.error.inj (Option.some.inj hp)
            subst he
            exact ⟨rfl, rfl⟩
      | ok data =>
        cases hmerge : mergeStep allData data (extractNextCursor data) with
        | error msg =>
          have heq : paginationLoop defn va sp env (.ok data :: rest) cursor allData pinfo
              = some ⟨[buildRequest defn va sp cursor],
                      .unexpectedError ("Unexpected error: " ++ msg)⟩ := by
            rw [paginationLoop_cons_ok defn va sp env hcred data rest cursor allData pinfo]
            simp only [hmerge]
          rw [heq] at hrun
          have h := Option.some.inj hrun
          subst h
          constructor
          · intro d hd
            exact absurd hd (by simp)
          · intro i e' hp hi
            simp only [List.length_cons, List.length_nil] at hi
            interval_cases i
            · simp at hp
        | ok newAll =>
          cases hcont : (truthy (extractNextCursor data) && sp) with
          | true =>
            cases hrec : paginationLoop defn va sp env rest (extractNextCursor data) newAll
                (stepPInfo pinfo true) with
            | none =>
              have heq : paginationLoop defn va sp env (.ok data :: rest) cursor allData pinfo
                  = none := by
                rw [paginationLoop_cons_ok defn va sp env hcred data rest cursor allData pinfo]
                simp only [hmerge, hcont, eq_self_iff_true, if_true, hrec]
              rw [heq] at hrun
              exact absurd hrun (by simp)
            | some run' =>
              have heq : paginationLoop defn va sp env (.ok data :: rest) cursor allData pinfo
                  = some ⟨buildRequest defn va sp cursor :: run'.requests, run'.outcome⟩ := by
                rw [paginationLoop_cons_ok defn va sp env hcred data rest cursor allData pinfo]
                simp only [hmerge, hcont, eq_self_iff_true, if_true, hrec]
              rw [heq] at hrun
              have h := Option.some.inj hrun
              subst h
              obtain ⟨ih1, ih2⟩ := ih (extractNextCursor data) newAll
                (stepPInfo pinfo true) run' hrec
              constructor
              · intro d hd i hi
                cases i with
                | zero => exact ⟨data, rfl⟩
                | succ j =>
                  simp only [List.length_cons] at hi
                  exact ih1 d hd j (by omega)
              · intro i e' hp hi
                cases i with
                | zero => simp at hp
                | succ j =>
                  simp only [List.length_cons] at hi
                  simp only [List.get?] at hp
                  obtain ⟨ho, hl⟩ := ih2 j e' hp (by omega)
                  exact ⟨ho, by simp [List.length_cons, hl]⟩
          | false =>
            cases hset : setF newAll "_paginationInfo"
                (stepPInfo pinfo false).toJS with
            | error msg =>
              have heq : paginationLoop defn va sp env (.ok data :: rest) cursor allData pinfo
                  = some ⟨[buildRequest defn va sp cursor],
                          .unexpectedError ("Unexpected error: " ++ msg)⟩ := by
                rw [paginationLoop_cons_ok defn va sp env hcred data rest cursor allData pinfo]
                simp only [hmerge, hcont, Bool.false_eq_true, if_false, hset]
              rw [heq] at hrun
              have h := Option.some.inj hrun
              subst h
              constructor
              · intro d hd
                exact absurd hd (by simp)
              · intro i e' hp hi
                simp only [List.length_cons, List.length_nil] at hi
                interval_cases i
                · simp at hp
            | ok finalData =>
              have heq : paginationLoop defn va sp env (.ok data :: rest) cursor allData pinfo
                  = some ⟨[buildRequest defn va sp cursor], .ok finalData⟩ := by
                rw [paginationLoop_cons_ok defn va sp env hcred data rest cursor allData pinfo]
                simp only [hmerge, hcont, Bool.false_eq_true, if_false, hset]
              rw [heq] at hrun
              have h := Option.some.inj hrun
              subst h
              constructor
              · intro d hd i hi
                simp only [List.length_cons, List.length_nil] at hi
                interval_cases i
                · exact ⟨data, rfl⟩
              · intro i e' hp hi
                simp only [List.length_cons, List.length_nil] at hi
                interval_cases i
                · simp at hp

/-- A key whose argument is undefined is never substituted into the
path. -/
theorem performedPathParams_no_key (params : List ParamDef)
    (args : List (String × JSValue)) (key : String)
    (h : lookupJS args key = .undef) :
    key ∉ (performedPathParams params args).map Prod.fst := by
  unfold performedPathParams
  intro hmem
  simp only [List.map_map, List.mem_map, Function.comp] at hmem
  obtain ⟨p, hp, hname⟩ := hmem
  rw [List.mem_filter] at hp
  obtain ⟨_, hcond⟩ := hp
  rw [Bool.and_eq_true] at hcond
  have hpn : p.name = key := hname
  rw [hpn, h] at hcond
  simp [isUndef] at hcond

/-- A key whose argument is undefined never enters the query assembly. -/
theorem qpFold_no_key (args : List (String × JSValue)) (key : String)
    (h : lookupJS args key = .undef) :
    ∀ (params : List ParamDef) (qp : List (String × JSValue)),
      key ∉ qp.map Prod.fst →
      key ∉ (params.foldl (qpStep args) qp).map Prod.fst := by
  intro params
  induction params with
  | nil =>
    intro qp h0
    simpa using h0
  | cons p ps ih =>
    intro qp h0
    rw [List.foldl_cons]
    apply ih
    unfold qpStep
    by_cases hloc : (p.location == "query") = true
    · rw [if_pos hloc]
      by_cases hdef : (!(isUndef (lookupJS args p.name))) = true
      · rw [if_pos hdef]
        refine setEntry_keys_subset qp p.name (lookupJS args p.name) key h0 ?_
        intro heq
        rw [← heq, h] at hdef
        simp [isUndef] at hdef
      · rw [if_neg hdef]
        exact h0
    · rw [if_neg hloc]
      exact h0

/-- No request assembled from arguments lacking the paginate key carries
that key in its path substitutions, its query parameters or its body. -/
theorem buildRequest_no_paginate (defn : McpToolDefinition)
    (va : List (String × JSValue)) (sp : Bool) (c : JSValue)
    (hpagundef : lookupJS va "paginate" = .undef)
    (hrb : "paginate" ∉ (objSpread (lookupJS va "requestBody")).map Prod.fst) :
    ("paginate" ∉ (buildRequest defn va sp c).pathParams.map Prod.fst) ∧
    ("paginate" ∉ (buildRequest defn va sp c).queryParams.map Prod.fst) ∧
    (∀ bf, (buildRequest defn va sp c).body = some (.obj bf) →
      "paginate" ∉ bf.map Prod.fst) := by
  refine ⟨?_, ?_, ?_⟩
  · exact performedPathParams_no_key defn.executionParameters va "paginate" hpagundef
  · show "paginate" ∉ (if truthy c && defn.executionParameters.any
        (fun p => p.name == "cursor" && p.location == "query") then
      setEntry (buildQueryParams defn.executionParameters va) "cursor" c
    else buildQueryParams defn.executionParameters va).map Prod.fst
    have hqp : "paginate" ∉ (buildQueryParams defn.executionParameters va).map Prod.fst :=
      qpFold_no_key va "paginate" hpagundef defn.executionParameters [] (by simp)
    by_cases hcur : (truthy c && defn.executionParameters.any
        (fun p => p.name == "cursor" && p.location == "query")) = true
    · rw [if_pos hcur]
      exact setEntry_keys_subset _ _ _ _ hqp (by decide)
    · rw [if_neg hcur]
      exact hqp
  · intro bf hbf
    show "paginate" ∉ bf.map Prod.fst
    have hbody : (buildRequest defn va sp c).body =
        (if ctPresent defn.requestBodyContentType && truthy (lookupJS va "requestBody") then
          some (JSValue.obj
            (if truthy c && sp then setEntry (objSpread (lookupJS va "requestBody")) "cursor" c
             else objSpread (lookupJS va "requestBody")))
         else none) := rfl
    rw [hbody] at hbf
    by_cases hct : (ctPresent defn.requestBodyContentType &&
        truthy (lookupJS va "requestBody")) = true
    · rw [if_pos hct] at hbf
      have hobj := JSValue.obj.inj (Option.some.inj hbf)
      by_cases hcur : (truthy c && sp) = true
      · rw [if_pos hcur] at hobj
        rw [← hobj]
        exact setEntry_keys_subset _ _ _ _ hrb (by decide)
      · rw [if_neg hcur] at hobj
        rw [← hobj]
        exact hrb
    · rw [if_neg hct] at hbf
      exact absurd hbf (by simp)

/-- Every request a loop run issues is the assembly of the validated
arguments with some cursor value. -/
theorem paginationLoop_requests_shape (defn : McpToolDefinition)
    (va : List (String × JSValue)) (sp : Bool) (env : Env) :
    ∀ (pages : List (Except AxiosError JSValue)) (cursor allData : JSValue)
      (pinfo : PaginationInfo) (run : EngineRun),
      paginationLoop defn va sp env pages cursor allData pinfo = some run →
      ∀ req ∈ run.requests, ∃ c, req = buildRequest defn va sp c := by
  intro pages
  induction pages with
  | nil =>
    intro cursor allData pinfo run hrun
    cases hcred : (env.gongAccessKey == "" || env.gongSecret == "") with
    | true =>
      rw [paginationLoop_creds_missing defn va sp env hcred] at hrun
      have h := Option.some.inj hrun
      subst h
      intro req hreq
      simp at hreq
    | false =>
      rw [paginationLoop_nil defn va sp env hcred] at hrun
      exact absurd hrun (by simp)
  | cons resp rest ih =>
    intro cursor allData pinfo run hrun
    cases hcred : (env.gongAccessKey == "" || env.gongSecret == "") with
    | true =>
      rw [paginationLoop_creds_missing defn va sp env hcred] at hrun
      have h := Option.some.inj hrun
      subst h
      intro req hreq
      simp at hreq
    | false =>
      cases resp with
      | error e =>
        rw [paginationLoop_cons_error defn va sp env hcred e rest cursor allData pinfo] at hrun
        have h := Option.some.inj hrun
        subst h
        intro req hreq
        rw [List.mem_singleton] at hreq
        exact ⟨cursor, hreq⟩
      | ok data =>
        cases hmerge : mergeStep allData data (extractNextCursor data) with
        | error msg =>
          have heq : paginationLoop defn va sp env (.ok data :: rest) cursor allData pinfo
              = some ⟨[buildRequest defn va sp cursor],
                      .unexpectedError ("Unexpected error: " ++ msg)⟩ := by
            rw [paginationLoop_cons_ok defn va sp env hcred data rest cursor allData pinfo]
            simp only [hmerge]
          rw [heq] at hrun
          have h := Option.some.inj hrun
          subst h
          intro req hreq
          rw [List.mem_singleton] at hreq
          exact ⟨cursor, hreq⟩
        | ok newAll =>
          cases hcont : (truthy (extractNextCursor data) && sp) with
          | true =>
            cases hrec : paginationLoop defn va sp env rest (extractNextCursor data) newAll
                (stepPInfo pinfo true) with
            | none =>
              have heq : paginationLoop defn va sp env (.ok data :: rest) cursor allData pinfo
                  = none := by
                rw [paginationLoop_cons_ok defn va sp env hcred data rest cursor allData pinfo]
                simp only [hmerge, hcont, eq_self_iff_true, if_true, hrec]
              rw [heq] at hrun
              exact absurd hrun (by simp)
            | some run' =>
              have heq : paginationLoop defn va sp env (.ok data :: rest) cursor allData pinfo
                  = some ⟨buildRequest defn va sp cursor :: run'.requests, run'.outcome⟩ := by
                rw [paginationLoop_cons_ok defn va sp env hcred data rest cursor allData pinfo]
                simp only [hmerge, hcont, eq_self_iff_true, if_true, hrec]
              rw [heq] at hrun
              have h := Option.some.inj hrun
              subst h
              intro req hreq
              rw [List.mem_cons] at hreq
              rcases hreq with hhead | htail
              · exact ⟨cursor, hhead⟩
              · exact ih (extractNextCursor data) newAll (stepPInfo pinfo true) run' hrec req htail
          | false =>
            cases hset : setF newAll "_paginationInfo"
                (stepPInfo pinfo false).toJS with
            | error msg =>
              have heq : paginationLoop defn va sp env (.ok data :: rest) cursor allData pinfo
                  = some ⟨[buildRequest defn va sp cursor],
                          .unexpectedError ("Unexpected error: " ++ msg)⟩ := by
                rw [paginationLoop_cons_ok defn va sp env hcred data rest cursor allData pinfo]
                simp only [hmerge, hcont, Bool.false_eq_true, if_false, hset]
              rw [heq] at hrun
              have h := Option.some.inj hrun
              subst h
              intro req hreq
              rw [List.mem_singleton] at hreq
              exact ⟨cursor, hreq⟩
            | ok finalData =>
              have heq : paginationLoop defn va sp env (.ok data :: rest) cursor allData pinfo
                  = some ⟨[buildRequest defn va sp cursor], .ok finalData⟩ := by
                rw [paginationLoop_cons_ok defn va sp env hcred data rest cursor allData pinfo]
                simp only [hmerge, hcont, Bool.false_eq_true, if_false, hset]
              rw [heq] at hrun
              have h := Option.some.inj hrun
              subst h
              intro req hreq
              rw [List.mem_singleton] at hreq
              exact ⟨cursor, hreq⟩

/-- C5: for every operation and fully valid argument object, the paginate
sentinel is read from the raw arguments and coerced to a boolean (see
shouldPaginateOf) and is stripped from the normalized arguments, so the
paginate key appears in no path substitution, no query string and no
request body of any issued request (provided the caller did not separately
place a paginate key inside the requestBody argument itself, which is a
different field from the sentinel). -/
theorem c5_paginate_stripped (defn : McpToolDefinition)
    (toolArgs validated : List (String × JSValue)) (env : Env)
    (pages : List (Except AxiosError JSValue)) (run : EngineRun)
    (hval : validateArgs defn.validator toolArgs = .ok validated)
    (hrb : "paginate" ∉ (objSpread (lookupJS validated "requestBody")).map Prod.fst)
    (hrun : executeApiTool defn toolArgs env pages = some run) :
    ("paginate" ∉ (removeField validated "paginate").map Prod.fst) ∧
    (∀ req ∈ run.requests,
      ("paginate" ∉ req.pathParams.map Prod.fst) ∧
      ("paginate" ∉ req.queryParams.map Prod.fst) ∧
      (∀ bf, req.body = some (.obj bf) → "paginate" ∉ bf.map Prod.fst)) := by
  have hkeys : "paginate" ∉ (removeField validated "paginate").map Prod.fst := by
    intro hmem
    simp only [removeField, List.mem_map] at hmem
    obtain ⟨kv, hkv, hfst⟩ := hmem
    rw [List.mem_filter] at hkv
    obtain ⟨_, hcond⟩ := hkv
    rw [hfst] at hcond
    simp at hcond
  refine ⟨hkeys, ?_⟩
  rw [executeApiTool_validated defn toolArgs validated env pages hval] at hrun
  intro req hreq
  obtain ⟨c, rfl⟩ := paginationLoop_requests_shape defn (removeField validated "paginate")
    (shouldPaginateOf toolArgs) env pages _ _ _ run hrun req hreq
  have hpagundef : lookupJS (removeField validated "paginate") "paginate" = .undef :=
    lookupJS_removeField_self validated "paginate"
  have hrb' : "paginate" ∉
      (objSpread (lookupJS (removeField validated "paginate") "requestBody")).map Prod.fst := by
    rw [lookupJS_removeField_ne validated "paginate" "requestBody" (by decide)]
    exact hrb
  exact buildRequest_no_paginate defn _ _ c hpagundef hrb'

/-- C5 witness: a concrete body operation called with paginate set; the one
issued request carries no paginate key anywhere. -/
theorem c5_paginate_stripped_witness :
    executeApiTool postv2callsextensiveDef c5Args ⟨"k", "s"⟩ [.ok (.obj [])] = some c5Run ∧
    ("paginate" ∉ (removeField c5Args "paginate").map Prod.fst) ∧
    ("paginate" ∉ c5Req.pathParams.map Prod.fst) ∧
    ("paginate" ∉ c5Req.queryParams.map Prod.fst) ∧
    ("paginate" ∉ ([("filter", JSValue.obj [])]).map Prod.fst) := by
  have h := c5_paginate_stripped postv2callsextensiveDef c5Args c5Args ⟨"k", "s"⟩
    [.ok (.obj [])] c5Run rfl (by decide) rfl
  have hmem : c5Req ∈ c5Run.requests := by
    rw [show c5Run.requests = [c5Req] from rfl]
    exact List.mem_singleton.mpr rfl
  exact ⟨rfl, h.1, (h.2 c5Req hmem).1, (h.2 c5Req hmem).2.1,
    (h.2 c5Req hmem).2.2 [("filter", JSValue.obj [])] rfl⟩

/-- C7: every failure is caught at the engine boundary and rendered as a
textual payload (the model outcome type enumerates exactly the payloads the
catch blocks return, so no exception escapes); in particular a successful
merged result is only returned when every consumed page succeeded, and when
the i-th issued request receives an HTTP error the whole call stops there
and returns only the formatted api error, never a partially merged
result. -/
theorem c7_error_boundary (defn : McpToolDefinition)
    (toolArgs : List (String × JSValue)) (env : Env)
    (pages : List (Except AxiosError JSValue)) (run : EngineRun)
    (hrun : executeApiTool defn toolArgs env pages = some run) :
    (∀ d, run.outcome = .ok d →
        ∀ i, i < run.requests.length → ∃ b, pages.get? i = some (.ok b)) ∧
    (∀ i e, pages.get? i = some (.error e) → i < run.requests.length →
        run.outcome = .apiError (formatApiError e) ∧
          run.requests.length = i + 1) := by
  cases hval : validateArgs defn.validator toolArgs with
  | error msg =>
    rw [executeApiTool_invalid defn toolArgs env pages msg hval] at hrun
    have h := Option.some.inj hrun
    subst h
    exact ⟨fun d hd i hi => by simp at hi, fun i e hp hi => by simp at hi⟩
  | ok validated =>
    rw [executeApiTool_validated defn toolArgs validated env pages hval] at hrun
    exact paginationLoop_pages_spec defn (removeField validated "paginate")
      (shouldPaginateOf toolArgs) env pages _ _ _ run hrun

/-- C7 witness: a first-page HTTP 500 aborts the call with the formatted
api error after exactly one request. -/
theorem c7_error_boundary_witness :
    executeApiTool getv2usersDef [] ⟨"k", "s"⟩ [.error c7Err] = some c7Run ∧
    (c7Run.outcome = .apiError (formatApiError c7Err) ∧
      c7Run.requests.length = 0 + 1) :=
  ⟨rfl, (c7_error_boundary getv2usersDef [] ⟨"k", "s"⟩ [.error c7Err] c7Run rfl).2
    0 c7Err rfl (by decide)⟩

/-- The loop preserves equality of the two page counters: they start equal
and are incremented together, so any attached pagination metadata carries
currentPage equal to totalPages. -/
theorem paginationLoop_counters (defn : McpToolDefinition)
    (va : List (String × JSValue)) (sp : Bool) (env : Env) :
    ∀ (pages : List (Except AxiosError JSValue)) (cursor allData : JSValue)
      (pinfo : PaginationInfo) (run : EngineRun) (d : JSValue),
      pinfo.totalPages = pinfo.currentPage →
      paginationLoop defn va sp env pages cursor allData pinfo = some run →
      run.outcome = .ok d →
      ∀ piFields, optGet d "_paginationInfo" = .obj piFields →
        lookupJS piFields "currentPage" = lookupJS piFields "totalPages" := by
  intro pages
  induction pages with
  | nil =>
    intro cursor allData pinfo run d hinv hrun hok
    cases hcred : (env.gongAccessKey == "" || env.gongSecret == "") with
    | true =>
      rw [paginationLoop_creds_missing defn va sp env hcred] at hrun
      have h := Option.some.inj hrun
      subst h
      exact absurd hok (by simp)
    | false =>
      rw [paginationLoop_nil defn va sp env hcred] at hrun
      exact absurd hrun (by simp)
  | cons resp rest ih =>
    intro cursor allData pinfo run d hinv hrun hok
    cases hcred : (env.gongAccessKey == "" || env.gongSecret == "") with
    | true =>
      rw [paginationLoop_creds_missing defn va sp env hcred] at hrun
      have h := Option.some.inj hrun
      subst h
      exact absurd hok (by simp)
    | false =>
      cases resp with
      | error e =>
        rw [paginationLoop_cons_error defn va sp env hcred e rest cursor allData pinfo] at hrun
        have h := Option.some.inj hrun
        subst h
        exact absurd hok (by simp)
      | ok data =>
        cases hmerge : mergeStep allData data (extractNextCursor data) with
        | error msg =>
          have heq : paginationLoop defn va sp env (.ok data :: rest) cursor allData pinfo
              = some ⟨[buildRequest defn va sp cursor],
                      .unexpectedError ("Unexpected error: " ++ msg)⟩ := by
            rw [paginationLoop_cons_ok defn va sp env hcred data rest cursor allData pinfo]
            simp only [hmerge]
          rw [heq] at hrun
          have h := Option.some.inj hrun
          subst h
          exact absurd hok (by simp)
        | ok newAll =>
          cases hcont : (truthy (extractNextCursor data) && sp) with
          | true =>
            cases hrec : paginationLoop defn va sp env rest (extractNextCursor data) newAll
                (stepPInfo pinfo true) with
            | none =>
              have heq : paginationLoop defn va sp env (.ok data :: rest) cursor allData pinfo
                  = none := by
                rw [paginationLoop_cons_ok defn va sp env hcred data rest cursor allData pinfo]
                simp only [hmerge, hcont, eq_self_iff_true, if_true, hrec]
              rw [heq] at hrun
              exact absurd hrun (by simp)
            | some run' =>
              have heq : paginationLoop defn va sp env (.ok data :: rest) cursor allData pinfo
                  = some ⟨buildRequest defn va sp cursor :: run'.requests, run'.outcome⟩ := by
                rw [paginationLoop_cons_ok defn va sp env hcred data rest cursor allData pinfo]
                simp only [hmerge, hcont, eq_self_iff_true, if_true, hrec]
              rw [heq] at hrun
              have h := Option.some.inj hrun
              subst h
              exact ih (extractNextCursor data) newAll (stepPInfo pinfo true) run' d
                (by simp [stepPInfo, hinv]) hrec hok
          | false =>
            cases hset : setF newAll "_paginationInfo"
                (stepPInfo pinfo false).toJS with
            | error msg =>
              have heq : paginationLoop defn va sp env (.ok data :: rest) cursor allData pinfo
                  = some ⟨[buildRequest defn va sp cursor],
                          .unexpectedError ("Unexpected error: " ++ msg)⟩ := by
                rw [paginationLoop_cons_ok defn va sp env hcred data rest cursor allData pinfo]
                simp only [hmerge, hcont, Bool.false_eq_true, if_false, hset]
              rw [heq] at hrun
              have h := Option.some.inj hrun
              subst h
              exact absurd hok (by simp)
            | ok finalData =>
              have heq : paginationLoop defn va sp env (.ok data :: rest) cursor allData pinfo
                  = some ⟨[buildRequest defn va sp cursor], .ok finalData⟩ := by
                rw [paginationLoop_cons_ok defn va sp env hcred data rest cursor allData pinfo]
                simp only [hmerge, hcont, Bool.false_eq_true, if_false, hset]
              rw [heq] at hrun
              have h := Option.some.inj hrun
              subst h
              have hd : finalData = d := ToolOutcome.ok.inj hok
              subst hd
              intro piFields hpi
              cases newAll with
              | obj fs =>
                simp only [setF] at hset
                have hfin := Except.ok.inj hset
                subst hfin
                rw [show optGet (.obj (setEntry fs "_paginationInfo"
                      (stepPInfo pinfo false).toJS)) "_paginationInfo"
                    = lookupJS (setEntry fs "_paginationInfo"
                      (stepPInfo pinfo false).toJS) "_paginationInfo" from rfl,
                  lookupJS_setEntry_self] at hpi
                have hfields := JSValue.obj.inj hpi
                subst hfields
                show lookupJS _ "currentPage" = lookupJS _ "totalPages"
                rw [show lookupJS [("hasMorePages", JSValue.bool (stepPInfo pinfo false).hasMorePages),
                      ("totalPages", JSValue.num (stepPInfo pinfo false).totalPages),
                      ("currentPage", JSValue.num (stepPInfo pinfo false).currentPage)]
                      "currentPage" = JSValue.num (stepPInfo pinfo false).currentPage from rfl]
                rw [show lookupJS [("hasMorePages", JSValue.bool (stepPInfo pinfo false).hasMorePages),
                      ("totalPages", JSValue.num (stepPInfo pinfo false).totalPages),
                      ("currentPage", JSValue.num (stepPInfo pinfo false).currentPage)]
                      "totalPages" = JSValue.num (stepPInfo pinfo false).totalPages from rfl]
                simp [stepPInfo, hinv]
              | arr elems =>
                simp only [setF] at hset
                have hfin := Except.ok.inj hset
                subst hfin
                exact absurd hpi (by simp [optGet])
              | undef => simp [setF] at hset
              | null => simp [setF] at hset
              | bool b => simp [setF] at hset
              | num n => simp [setF] at hset
              | str s => simp [setF] at hset

/-- C9: in every successful engine result, the attached pagination metadata
satisfies currentPage equal to totalPages: both counters start at one and
are incremented together exactly when a next cursor was found and
pagination was requested. -/
theorem c9_counters_equal (defn : McpToolDefinition)
    (toolArgs : List (String × JSValue)) (env : Env)
    (pages : List (Except AxiosError JSValue)) (run : EngineRun) (d : JSValue)
    (hrun : executeApiTool defn toolArgs env pages = some run)
    (hok : run.outcome = .ok d) :
    ∀ piFields, optGet d "_paginationInfo" = .obj piFields →
      lookupJS piFields "currentPage" = lookupJS piFields "totalPages" := by
  cases hval : validateArgs defn.validator toolArgs with
  | error msg =>
    rw [executeApiTool_invalid defn toolArgs env pages msg hval] at hrun
    have h := Option.some.inj hrun
    subst h
    exact absurd hok (by simp)
  | ok validated =>
    rw [executeApiTool_validated defn toolArgs validated env pages hval] at hrun
    exact paginationLoop_counters defn (removeField validated "paginate")
      (shouldPaginateOf toolArgs) env pages _ _ _ run d rfl hrun hok

/-- C9 witness: the metadata of a concrete successful run has equal
counters. -/
theorem c9_counters_equal_witness :
    executeApiTool getv2usersDef [] ⟨"k", "s"⟩ [.ok (.obj [])] = some c9Run ∧
    c9Run.outcome = .ok c9Data ∧
    optGet c9Data "_paginationInfo" = .obj c9PiFields ∧
    lookupJS c9PiFields "currentPage" = lookupJS c9PiFields "totalPages" :=
  ⟨rfl, rfl, rfl,
    c9_counters_equal getv2usersDef [] ⟨"k", "s"⟩ [.ok (.obj [])] c9Run c9Data
      rfl rfl c9PiFields rfl⟩

/-- C10: when the single fetched page succeeds but its body is not a JSON
object or array (null, a string such as the empty one, a number or a
boolean), attaching the pagination metadata throws, and the caller receives
the unexpected-error textual payload instead of the response body. -/
theorem c10_nonobject_result_unexpected_error
    (defn : McpToolDefinition) (toolArgs validated : List (String × JSValue))
    (env : Env) (body : JSValue) (rest : List (Except AxiosError JSValue))
    (hval : validateArgs defn.validator toolArgs = .ok validated)
    (hkey : env.gongAccessKey ≠ "") (hsec : env.gongSecret ≠ "")
    (hbody : isObjOrArr body = false) :
    (executeApiTool defn toolArgs env (.ok body :: rest)).map (fun r => r.outcome)
      = some (.unexpectedError
          "Unexpected error: TypeError: Cannot create property _paginationInfo on a non-object value") := by
  rw [executeApiTool_validated defn toolArgs validated env _ hval]
  have hnc : extractNextCursor body = .null := by
    cases body <;> simp_all [isObjOrArr, extractNextCursor, optGet, jsOr, truthy]
  have hset : setF body "_paginationInfo" (PaginationInfo.toJS ⟨false, 1, 1⟩)
      = .error "TypeError: Cannot create property _paginationInfo on a non-object value" := by
    cases body <;> simp_all [setF, isObjOrArr]
  rw [paginationLoop_single_page_err _ _ _ _ _ _ _ _
        (by simpa using hkey) (by simpa using hsec)
        (by rw [hnc]; rfl) hset]
  rfl

/-- C10 witness: a null response body yields the unexpected-error payload. -/
theorem c10_nonobject_result_unexpected_error_witness :
    validateArgs getv2usersDef.validator [] = .ok [] ∧
    ("k" : String) ≠ "" ∧ ("s" : String) ≠ "" ∧
    isObjOrArr .null = false ∧
    (executeApiTool getv2usersDef [] ⟨"k", "s"⟩ [.ok .null]).map (fun r => r.outcome)
      = some (.unexpectedError
          "Unexpected error: TypeError: Cannot create property _paginationInfo on a non-object value") :=
  ⟨rfl, by decide, by decide, rfl,
    c10_nonobject_result_unexpected_error getv2usersDef [] [] ⟨"k", "s"⟩ .null []
      rfl (by decide) (by decide) rfl⟩

end GongMcp
